import Mathlib

/-!
Verification of the PyViewer remote-desktop host/viewer pair.

The definitions below are a shallow embedding of the Python sources
`pyviewer.server.py` and `pyviewer_client.py`: real-valued quantities are
modelled as rationals, Python `int()` as truncation toward zero, a Python
division as a checked operation that fails (raises) on a zero divisor, and
the stateful server operations as explicit state transformers that also
record a trace of the externally visible actions they perform.
-/

namespace PyViewer

instance (ε α : Type) [DecidableEq ε] [DecidableEq α] : DecidableEq (Except ε α) := fun x y =>
  match x, y with
  | .error a, .error b => decidable_of_iff (a = b) (by simp)
  | .error _, .ok _ => .isFalse (by simp)
  | .ok _, .error _ => .isFalse (by simp)
  | .ok a, .ok b => decidable_of_iff (a = b) (by simp)

/-! ## Coordinate mapper (`process_control_event`, mouse_move branch) -/

/-- The capturable desktop rectangle (`self.monitor_dims`). -/
structure MonitorGeometry where
  left : ℤ
  top : ℤ
  width : ℤ
  height : ℤ
deriving DecidableEq

/-- Payload of a `mouse_move` control event: normalized pointer position and
the (optional) viewer surface dimensions. -/
structure MouseMoveData where
  rel_x : ℚ
  rel_y : ℚ
  client_video_width : Option ℚ
  client_video_height : Option ℚ

/-- Python truthiness test for an optional number: `not v` is true when the
key is absent (None) or the value is zero. -/
def falsy : Option ℚ → Bool
  | none => true
  | some v => v == 0

/-- Python `int(x)`: truncation toward zero. -/
def pyInt (q : ℚ) : ℤ :=
  if 0 ≤ q then ⌊q⌋ else ⌈q⌉

/-- The shared tail of the mouse_move branch: clamp the computed target to
the monitor rectangle (`max(left, min(target_x, bounds_right - 1))` and the
same for y) and inject the pointer there. -/
def inject_target (g : MonitorGeometry) (tx ty : ℤ) : ℤ × ℤ :=
  (max g.left (min tx (g.left + g.width - 1)),
   max g.top (min ty (g.top + g.height - 1)))

/-- The mouse_move branch of `process_control_event`.  `Except.error ()`
models a Python exception escaping the arithmetic (caught by the outer
handler, so no pointer is injected); `Except.ok none` models the early
`return` that drops an event inside a padding band; `Except.ok (some p)`
models injecting the pointer at `p`.  Every division of the source carries
an explicit zero-divisor check. -/
def process_mouse_move (g : MonitorGeometry) (d : MouseMoveData) :
    Except Unit (Option (ℤ × ℤ)) :=
  let server_width : ℚ := (g.width : ℚ)
  let server_height : ℚ := (g.height : ℚ)
  if falsy d.client_video_width || falsy d.client_video_height then
    Except.ok (some (inject_target g
      (pyInt (d.rel_x * server_width) + g.left)
      (pyInt (d.rel_y * server_height) + g.top)))
  else
    if server_height = 0 then Except.error () else
    let server_aspect := server_width / server_height
    let cw := d.client_video_width.getD 0
    let ch := d.client_video_height.getD 0
    if ch = 0 then Except.error () else
    let client_aspect := cw / ch
    if client_aspect > server_aspect then
      if client_aspect = 0 then Except.error () else
      let scale := server_aspect / client_aspect
      let offset := (1 - scale) / 2
      if d.rel_y < offset ∨ d.rel_y > 1 - offset then Except.ok none else
      if scale = 0 then Except.error () else
      let corrected_rel_y := (d.rel_y - offset) / scale
      Except.ok (some (inject_target g
        (pyInt (d.rel_x * server_width) + g.left)
        (pyInt (corrected_rel_y * server_height) + g.top)))
    else if client_aspect < server_aspect then
      if server_aspect = 0 then Except.error () else
      let scale := client_aspect / server_aspect
      let offset := (1 - scale) / 2
      if d.rel_x < offset ∨ d.rel_x > 1 - offset then Except.ok none else
      if scale = 0 then Except.error () else
      let corrected_rel_x := (d.rel_x - offset) / scale
      Except.ok (some (inject_target g
        (pyInt (corrected_rel_x * server_width) + g.left)
        (pyInt (d.rel_y * server_height) + g.top)))
    else
      Except.ok (some (inject_target g
        (pyInt (d.rel_x * server_width) + g.left)
        (pyInt (d.rel_y * server_height) + g.top)))

lemma pyInt_eq_floor (q : ℚ) (h : 0 ≤ q) : pyInt q = ⌊q⌋ := if_pos h

lemma inject_target_bounds (g : MonitorGeometry) (hw : 0 < g.width) (hh : 0 < g.height)
    (tx ty : ℤ) :
    (g.left ≤ (inject_target g tx ty).1 ∧ (inject_target g tx ty).1 ≤ g.left + g.width - 1) ∧
    (g.top ≤ (inject_target g tx ty).2 ∧ (inject_target g tx ty).2 ≤ g.top + g.height - 1) := by
  unfold inject_target
  exact ⟨⟨le_max_left _ _, max_le (by omega) (min_le_right _ _)⟩,
         ⟨le_max_left _ _, max_le (by omega) (min_le_right _ _)⟩⟩

/-- Every successfully injected pointer is produced by the shared clamping tail. -/
lemma process_ok_shape (g : MonitorGeometry) (d : MouseMoveData) (p : ℤ × ℤ)
    (h : process_mouse_move g d = Except.ok (some p)) :
    ∃ tx ty, p = inject_target g tx ty := by
  simp only [process_mouse_move] at h
  repeat' split at h
  all_goals try exact Except.noConfusion h
  all_goals injection h with h1
  all_goals try exact Option.noConfusion h1
  all_goals injection h1 with h2
  all_goals exact ⟨_, _, h2.symm⟩

/-- C1.  A mouse_move event with no (or falsy) reported viewer dimensions is
mapped by naive linear scaling against the full monitor rectangle; every
injected coordinate (on any event) is clamped to
`[left, left+width-1] × [top, top+height-1]`; and for the 1920×1080 geometry
at the origin the naive path yields `floor(relX*1920), floor(relY*1080)`
clamped to `[0,1919] × [0,1079]`. -/
theorem mouse_move_naive_scaling_and_clamp (g : MonitorGeometry) (d : MouseMoveData)
    (hw : 0 < g.width) (hh : 0 < g.height)
    (hfal : falsy d.client_video_width = true ∨ falsy d.client_video_height = true) :
    process_mouse_move g d = Except.ok (some
      (max g.left (min (pyInt (d.rel_x * (g.width : ℚ)) + g.left) (g.left + g.width - 1)),
       max g.top (min (pyInt (d.rel_y * (g.height : ℚ)) + g.top) (g.top + g.height - 1)))) ∧
    (∀ d' p, process_mouse_move g d' = Except.ok (some p) →
      (g.left ≤ p.1 ∧ p.1 ≤ g.left + g.width - 1) ∧
      (g.top ≤ p.2 ∧ p.2 ≤ g.top + g.height - 1)) ∧
    (∀ rx ry : ℚ, 0 ≤ rx → 0 ≤ ry →
      process_mouse_move ⟨0, 0, 1920, 1080⟩ ⟨rx, ry, none, none⟩ =
        Except.ok (some (max 0 (min ⌊rx * 1920⌋ 1919), max 0 (min ⌊ry * 1080⌋ 1079)))) := by
  have h1 : (falsy d.client_video_width || falsy d.client_video_height) = true := by
    rcases hfal with h | h <;> simp [h]
  refine ⟨?_, ?_, ?_⟩
  · simp only [process_mouse_move]
    rw [if_pos h1]
    rfl
  · intro d' p hp
    obtain ⟨tx, ty, rfl⟩ := process_ok_shape g d' p hp
    exact inject_target_bounds g hw hh tx ty
  · intro rx ry hx hy
    have e : process_mouse_move ⟨0, 0, 1920, 1080⟩ ⟨rx, ry, none, none⟩ =
        Except.ok (some (inject_target ⟨0, 0, 1920, 1080⟩
          (pyInt (rx * ((1920 : ℤ) : ℚ)) + 0) (pyInt (ry * ((1080 : ℤ) : ℚ)) + 0))) := rfl
    rw [e, pyInt_eq_floor _ (by positivity), pyInt_eq_floor _ (by positivity)]
    norm_num [inject_target]

/-- C1 witness: the naive path at `relX = relY = 1/2` lands on (960, 540). -/
theorem mouse_move_naive_scaling_and_clamp_witness :
    process_mouse_move ⟨0, 0, 1920, 1080⟩ ⟨1/2, 1/2, none, none⟩ =
      Except.ok (some (960, 540)) := by
  have h := (mouse_move_naive_scaling_and_clamp ⟨0, 0, 1920, 1080⟩ ⟨1/2, 1/2, none, none⟩
    (by norm_num) (by norm_num) (Or.inl rfl)).1
  rw [h]
  norm_num [pyInt, max_def, min_def]

/-- C10.  When the reported viewer width or height is absent or zero, the
naive path is taken: the event is processed without a Python error (no
division is reached, in particular no zero-divisor division). -/
theorem mouse_move_falsy_dims_safe (g : MonitorGeometry) (d : MouseMoveData)
    (hfal : falsy d.client_video_width = true ∨ falsy d.client_video_height = true) :
    process_mouse_move g d = Except.ok (some (inject_target g
      (pyInt (d.rel_x * (g.width : ℚ)) + g.left)
      (pyInt (d.rel_y * (g.height : ℚ)) + g.top))) ∧
    process_mouse_move g d ≠ Except.error () := by
  have h1 : (falsy d.client_video_width || falsy d.client_video_height) = true := by
    rcases hfal with h | h <;> simp [h]
  constructor
  · simp only [process_mouse_move]
    rw [if_pos h1]
  · simp only [process_mouse_move]
    rw [if_pos h1]
    simp

/-- C10 witness: a reported width of exactly 0 (which would make the aspect
division ill-defined) is routed to the naive path and injects normally. -/
theorem mouse_move_falsy_dims_safe_witness :
    process_mouse_move ⟨0, 0, 1920, 1080⟩ ⟨1/2, 1/2, some 0, some 100⟩ =
      Except.ok (some (960, 540)) := by
  have h := (mouse_move_falsy_dims_safe ⟨0, 0, 1920, 1080⟩ ⟨1/2, 1/2, some 0, some 100⟩
    (Or.inl (by simp [falsy]))).1
  rw [h]
  norm_num [pyInt, inject_target, max_def, min_def]

/-- C2.  With reported viewer dimensions: when the viewer aspect exceeds the
capture aspect (letterboxing), a normalized Y inside the padding band is
dropped and an outside one is rescaled by `(relY - offset)/scale` before
mapping; the symmetric correction applies to X when the viewer aspect is
smaller (pillarboxing); and for viewer 2000×1000 against capture 1920×1080,
relY = 0.03 is dropped while relY = 0.5 maps to (960, 540). -/
theorem mouse_move_aspect_correction (g : MonitorGeometry) (cw ch : ℚ)
    (hw : 0 < g.width) (hh : 0 < g.height) (hcw : 0 < cw) (hch : 0 < ch) :
    (∀ rx ry : ℚ, cw / ch > (g.width : ℚ) / (g.height : ℚ) →
      ((ry < (1 - (g.width : ℚ) / (g.height : ℚ) / (cw / ch)) / 2 ∨
        ry > 1 - (1 - (g.width : ℚ) / (g.height : ℚ) / (cw / ch)) / 2) →
        process_mouse_move g ⟨rx, ry, some cw, some ch⟩ = Except.ok none) ∧
      (¬(ry < (1 - (g.width : ℚ) / (g.height : ℚ) / (cw / ch)) / 2 ∨
         ry > 1 - (1 - (g.width : ℚ) / (g.height : ℚ) / (cw / ch)) / 2) →
        process_mouse_move g ⟨rx, ry, some cw, some ch⟩ = Except.ok (some (inject_target g
          (pyInt (rx * (g.width : ℚ)) + g.left)
          (pyInt ((ry - (1 - (g.width : ℚ) / (g.height : ℚ) / (cw / ch)) / 2) /
              ((g.width : ℚ) / (g.height : ℚ) / (cw / ch)) * (g.height : ℚ)) + g.top))))) ∧
    (∀ rx ry : ℚ, cw / ch < (g.width : ℚ) / (g.height : ℚ) →
      ((rx < (1 - cw / ch / ((g.width : ℚ) / (g.height : ℚ))) / 2 ∨
        rx > 1 - (1 - cw / ch / ((g.width : ℚ) / (g.height : ℚ))) / 2) →
        process_mouse_move g ⟨rx, ry, some cw, some ch⟩ = Except.ok none) ∧
      (¬(rx < (1 - cw / ch / ((g.width : ℚ) / (g.height : ℚ))) / 2 ∨
         rx > 1 - (1 - cw / ch / ((g.width : ℚ) / (g.height : ℚ))) / 2) →
        process_mouse_move g ⟨rx, ry, some cw, some ch⟩ = Except.ok (some (inject_target g
          (pyInt ((rx - (1 - cw / ch / ((g.width : ℚ) / (g.height : ℚ))) / 2) /
              (cw / ch / ((g.width : ℚ) / (g.height : ℚ))) * (g.width : ℚ)) + g.left)
          (pyInt (ry * (g.height : ℚ)) + g.top))))) ∧
    process_mouse_move ⟨0, 0, 1920, 1080⟩ ⟨1/2, 3/100, some 2000, some 1000⟩ =
      Except.ok none ∧
    process_mouse_move ⟨0, 0, 1920, 1080⟩ ⟨1/2, 1/2, some 2000, some 1000⟩ =
      Except.ok (some (960, 540)) := by
  have hgw : ((g.width : ℚ)) > 0 := by exact_mod_cast hw
  have hgh : ((g.height : ℚ)) > 0 := by exact_mod_cast hh
  have hsa : (g.width : ℚ) / (g.height : ℚ) > 0 := div_pos hgw hgh
  have hca : cw / ch > 0 := div_pos hcw hch
  have hfal : (falsy (some cw) || falsy (some ch)) = false := by
    simp [falsy, hcw.ne', hch.ne']
  refine ⟨?_, ?_, ?_, ?_⟩
  · intro rx ry hgt
    have key : process_mouse_move g ⟨rx, ry, some cw, some ch⟩ =
        (if ry < (1 - (g.width : ℚ) / (g.height : ℚ) / (cw / ch)) / 2 ∨
            ry > 1 - (1 - (g.width : ℚ) / (g.height : ℚ) / (cw / ch)) / 2 then Except.ok none
         else Except.ok (some (inject_target g
          (pyInt (rx * (g.width : ℚ)) + g.left)
          (pyInt ((ry - (1 - (g.width : ℚ) / (g.height : ℚ) / (cw / ch)) / 2) /
              ((g.width : ℚ) / (g.height : ℚ) / (cw / ch)) * (g.height : ℚ)) + g.top)))) := by
      simp only [process_mouse_move, Option.getD_some]
      rw [if_neg (by simp [hfal]), if_neg hgh.ne', if_neg hch.ne', if_pos hgt, if_neg hca.ne']
      simp only [if_neg (div_pos hsa hca).ne']
    exact ⟨fun hband => by rw [key, if_pos hband], fun hband => by rw [key, if_neg hband]⟩
  · intro rx ry hlt
    have key : process_mouse_move g ⟨rx, ry, some cw, some ch⟩ =
        (if rx < (1 - cw / ch / ((g.width : ℚ) / (g.height : ℚ))) / 2 ∨
            rx > 1 - (1 - cw / ch / ((g.width : ℚ) / (g.height : ℚ))) / 2 then Except.ok none
         else Except.ok (some (inject_target g
          (pyInt ((rx - (1 - cw / ch / ((g.width : ℚ) / (g.height : ℚ))) / 2) /
              (cw / ch / ((g.width : ℚ) / (g.height : ℚ))) * (g.width : ℚ)) + g.left)
          (pyInt (ry * (g.height : ℚ)) + g.top)))) := by
      simp only [process_mouse_move, Option.getD_some]
      rw [if_neg (by simp [hfal]), if_neg hgh.ne', if_neg hch.ne', if_neg (not_lt.mpr hlt.le),
        if_pos hlt, if_neg hsa.ne']
      simp only [if_neg (div_pos hca hsa).ne']
    exact ⟨fun hband => by rw [key, if_pos hband], fun hband => by rw [key, if_neg hband]⟩
  · norm_num [process_mouse_move, falsy]
  · norm_num [process_mouse_move, falsy, inject_target, pyInt, max_def, min_def]

/-- C2 witness: the concrete 2000×1000 viewer against the 1920×1080 capture
drops relY = 0.03 inside the letterbox band. -/
theorem mouse_move_aspect_correction_witness :
    process_mouse_move ⟨0, 0, 1920, 1080⟩ ⟨1/2, 3/100, some 2000, some 1000⟩ =
      Except.ok none :=
  (mouse_move_aspect_correction ⟨0, 0, 1920, 1080⟩ 2000 1000
    (by norm_num) (by norm_num) (by norm_num) (by norm_num)).2.2.1

/-! ## Mode negotiation (`run_server` accept loop, client `_connect_sockets`) -/

/-- The mode byte `run_server` computes right after `accept`:
`'F' if self.encoder_mode.startswith("FFmpeg") else 'L'`. -/
def mode_byte (encoder_mode : String) : Char :=
  if encoder_mode.startsWith "FFmpeg" then 'F' else 'L'

/-- The byte sequence a fresh video connection carries: `sendall` writes the
one mode byte before the media thread is started, so every payload byte
follows it. -/
def video_connection_stream (encoder_mode : String) (payload : List Char) : List Char :=
  mode_byte encoder_mode :: payload

/-- The client's first read on the video socket (`recv(1)` in
`_connect_sockets`); `none` models an empty read. -/
def client_read_mode : List Char → Option (Char × List Char)
  | [] => none
  | c :: rest => some (c, rest)

/-- C3.  A fresh video connection carries exactly one mode byte before any
stream payload: the first byte is `'F'` exactly when the encoder mode starts
with "FFmpeg" and `'L'` otherwise, the rest of the stream is exactly the
payload, and the client's first one-byte read returns that byte. -/
theorem mode_byte_negotiation (encoder_mode : String) (payload : List Char) :
    (mode_byte encoder_mode = 'F' ∨ mode_byte encoder_mode = 'L') ∧
    (mode_byte encoder_mode = 'F' ↔ encoder_mode.startsWith "FFmpeg" = true) ∧
    (mode_byte encoder_mode = 'L' ↔ ¬ encoder_mode.startsWith "FFmpeg" = true) ∧
    video_connection_stream encoder_mode payload = [mode_byte encoder_mode] ++ payload ∧
    client_read_mode (video_connection_stream encoder_mode payload) =
      some (mode_byte encoder_mode, payload) := by
  refine ⟨?_, ?_, ?_, rfl, rfl⟩
  · unfold mode_byte
    split
    · exact Or.inl rfl
    · exact Or.inr rfl
  · unfold mode_byte
    split <;> rename_i h <;> simp [h]
  · unfold mode_byte
    split <;> rename_i h <;> simp [h]

/-! ## Legacy frame protocol (`stream_screen_x11` sender, `_handle_legacy_stream` receiver) -/

/-- The 4 big-endian bytes of `struct.pack` applied to a frame length. -/
def pack_be32 (n : ℕ) : List ℕ :=
  [n / 2 ^ 24 % 256, n / 2 ^ 16 % 256, n / 2 ^ 8 % 256, n % 256]

/-- `struct.unpack` of a 4-byte big-endian length. -/
def unpack_be32 : List ℕ → ℕ
  | [b0, b1, b2, b3] => b0 * 2 ^ 24 + b1 * 2 ^ 16 + b2 * 2 ^ 8 + b3
  | _ => 0

/-- One legacy frame as `stream_screen_x11` sends it: the packed 4-byte
length followed by the image bytes (`struct.pack` raises on a length that
does not fit 32 bits, hence the guard). -/
def send_frame (img : List ℕ) : Option (List ℕ) :=
  if img.length < 2 ^ 32 then some (pack_be32 img.length ++ img) else none

/-- `_recv_all(sock, n)`: exactly `n` bytes from the front of the stream, or
`None` when the stream is too short. -/
def recv_all (n : ℕ) (s : List ℕ) : Option (List ℕ × List ℕ) :=
  if n ≤ s.length then some (s.take n, s.drop n) else none

/-- One iteration of the client's `_handle_legacy_stream`: read the 4-byte
length prefix, then exactly that many image bytes. -/
def recv_frame (s : List ℕ) : Option (List ℕ × List ℕ) :=
  match recv_all 4 s with
  | none => none
  | some (hdr, rest) =>
    match recv_all (unpack_be32 hdr) rest with
    | none => none
    | some (img, rest2) => some (img, rest2)

lemma unpack_pack_be32 (n : ℕ) (h : n < 2 ^ 32) : unpack_be32 (pack_be32 n) = n := by
  simp only [pack_be32, unpack_be32]
  omega

lemma pack_be32_length (n : ℕ) : (pack_be32 n).length = 4 := rfl

/-- C5.  Legacy frame round-trip: the sender emits exactly a 4-byte
big-endian length N followed by the N image bytes, and the receiver (4-byte
read, then N-byte read) reconstructs exactly the sent image bytes, leaving
the rest of the stream untouched. -/
theorem legacy_frame_roundtrip (img rest : List ℕ) (h : img.length < 2 ^ 32) :
    send_frame img = some (pack_be32 img.length ++ img) ∧
    recv_frame (pack_be32 img.length ++ img ++ rest) = some (img, rest) := by
  refine ⟨if_pos h, ?_⟩
  have h4 : recv_all 4 (pack_be32 img.length ++ (img ++ rest)) =
      some (pack_be32 img.length, img ++ rest) := by
    have hlen : (4 : ℕ) ≤ (pack_be32 img.length ++ (img ++ rest)).length := by
      simp [pack_be32]
    rw [recv_all, if_pos hlen]
    rw [show (4 : ℕ) = (pack_be32 img.length).length from rfl]
    rw [List.take_left, List.drop_left]
  have hn : recv_all img.length (img ++ rest) = some (img, rest) := by
    have hlen : img.length ≤ (img ++ rest).length := by simp
    rw [recv_all, if_pos hlen, List.take_left, List.drop_left]
  rw [List.append_assoc, recv_frame, h4]
  simp only [unpack_pack_be32 _ h, hn]

/-- C5 witness: a 2-byte image [7, 8] travels as [0,0,0,2,7,8] and is
reconstructed exactly, leaving the following byte [9] in the stream. -/
theorem legacy_frame_roundtrip_witness :
    send_frame [7, 8] = some [0, 0, 0, 2, 7, 8] ∧
    recv_frame [0, 0, 0, 2, 7, 8, 9] = some ([7, 8], [9]) := by
  have h := legacy_frame_roundtrip [7, 8] [9] (by norm_num)
  simpa [pack_be32] using h

/-! ## Server state, restart and teardown
(`restart_ffmpeg_stream`, `stop_server`) -/

/-- The socket handles a `RemoteDesktopServer` owns. -/
inductive SockId
  | vid | aud | ctl | vidListener | audListener | ctlListener
deriving DecidableEq

/-- Externally visible steps a teardown or restart performs, recorded as a
trace. -/
inductive Action
  | setStopStream | clearStopStream | setStopHeartbeat | setStopControl
  | joinMediaThread | terminateProc | killProc | startMediaThread
  | shutdownSock (s : SockId) | closeSock (s : SockId) | saveSettings
deriving DecidableEq

/-- The mutable fields of `RemoteDesktopServer` the restart/teardown paths
touch.  Socket, process and thread handles are modelled as optional ids. -/
structure ServerState where
  is_running : Bool
  encoder_mode : String
  client_conn : Option ℕ
  audio_client_conn : Option ℕ
  control_client_conn : Option ℕ
  server_socket : Option ℕ
  audio_socket : Option ℕ
  control_socket_listener : Option ℕ
  media_process : Option ℕ
  media_thread : Option ℕ
  stop_stream_event : Bool
  stop_heartbeat_event : Bool
  stop_control_event : Bool
deriving DecidableEq

/-- The nondeterministic environment of a pipeline restart: whether the old
media thread is still alive at join time, whether `wait(timeout=2)` times
out (forcing `kill`), and the id of the freshly started thread. -/
structure RestartEnv where
  threadAlive : Bool
  waitTimesOut : Bool
  newThread : ℕ

/-- `restart_ffmpeg_stream`: under the stream-management lock, when running
in FFmpeg mode with a client connected, stop the old media thread (bounded
join), terminate the old process (bounded wait, then kill), clear the stop
event and start a fresh `stream_ffmpeg` thread.  The video socket
(`client_conn`) is never touched. -/
def restart_ffmpeg_stream (env : RestartEnv) (s : ServerState) : ServerState × List Action :=
  if s.is_running = true ∧ s.encoder_mode.startsWith "FFmpeg" = true ∧ s.client_conn ≠ none then
    ({ s with
        media_process := none
        media_thread := some env.newThread
        stop_stream_event := false },
     [Action.setStopStream] ++
       (if s.media_thread.isSome && env.threadAlive then [Action.joinMediaThread] else []) ++
       (if s.media_process.isSome then
          [Action.terminateProc] ++ (if env.waitTimesOut then [Action.killProc] else [])
        else []) ++
       [Action.clearStopStream, Action.startMediaThread])
  else (s, [])

/-- `close_socket(sock)` inside `stop_server`: shutdown then close when the
handle is present, each call tolerating `OSError`. -/
def close_socket_trace (sock : Option ℕ) (id : SockId) : List Action :=
  match sock with
  | some _ => [Action.shutdownSock id, Action.closeSock id]
  | none => []

/-- `stop_server`: guarded against re-entry on an already-stopped state
(`if not self.is_running and self.server_socket is None: return`), it sets
every stop event, terminates the media process (kill on timeout), closes
every socket handle and nulls them, and persists the settings. -/
def stop_server (wait_times_out : Bool) (s : ServerState) : ServerState × List Action :=
  if s.is_running = false ∧ s.server_socket = none then (s, [])
  else
    ({ is_running := false
       encoder_mode := s.encoder_mode
       client_conn := none
       audio_client_conn := none
       control_client_conn := none
       server_socket := none
       audio_socket := none
       control_socket_listener := none
       media_process := none
       media_thread := s.media_thread
       stop_stream_event := true
       stop_heartbeat_event := true
       stop_control_event := true },
     [Action.setStopStream, Action.setStopHeartbeat, Action.setStopControl] ++
       (if s.media_process.isSome then
          [Action.terminateProc] ++ (if wait_times_out then [Action.killProc] else [])
        else []) ++
       close_socket_trace s.client_conn SockId.vid ++
       close_socket_trace s.audio_client_conn SockId.aud ++
       close_socket_trace s.control_client_conn SockId.ctl ++
       close_socket_trace s.server_socket SockId.vidListener ++
       close_socket_trace s.audio_socket SockId.audListener ++
       close_socket_trace s.control_socket_listener SockId.ctlListener ++
       [Action.saveSettings])

/-- C4.  An in-session FFmpeg restart never closes, shuts down or reassigns
the video socket, and when the guard holds (running, FFmpeg mode, client
connected) it replaces the media pipeline: old process terminated (killed on
wait timeout), handles reset, and a fresh streaming thread started. -/
theorem restart_preserves_video_socket (env : RestartEnv) (s : ServerState) :
    (restart_ffmpeg_stream env s).1.client_conn = s.client_conn ∧
    (∀ sk, Action.closeSock sk ∉ (restart_ffmpeg_stream env s).2 ∧
           Action.shutdownSock sk ∉ (restart_ffmpeg_stream env s).2) ∧
    (s.is_running = true → s.encoder_mode.startsWith "FFmpeg" = true →
     s.client_conn ≠ none →
      (restart_ffmpeg_stream env s).1.media_process = none ∧
      (restart_ffmpeg_stream env s).1.media_thread = some env.newThread ∧
      (restart_ffmpeg_stream env s).1.stop_stream_event = false ∧
      Action.startMediaThread ∈ (restart_ffmpeg_stream env s).2 ∧
      (s.media_process.isSome = true →
        Action.terminateProc ∈ (restart_ffmpeg_stream env s).2) ∧
      (s.media_process.isSome = true → env.waitTimesOut = true →
        Action.killProc ∈ (restart_ffmpeg_stream env s).2)) := by
  by_cases hg : s.is_running = true ∧ s.encoder_mode.startsWith "FFmpeg" = true ∧
      s.client_conn ≠ none
  · rw [restart_ffmpeg_stream, if_pos hg]
    refine ⟨rfl, ?_, ?_⟩
    · intro sk
      constructor <;>
        · simp only [List.mem_append, List.mem_cons, List.not_mem_nil]
          split_ifs <;> simp
    · intro _ _ _
      refine ⟨rfl, rfl, rfl, ?_, ?_, ?_⟩
      · simp
      · intro hp
        simp [hp]
      · intro hp hw
        simp [hp, hw]
  · rw [restart_ffmpeg_stream, if_neg hg]
    refine ⟨rfl, by simp, ?_⟩
    intro h1 h2 h3
    exact absurd ⟨h1, h2, h3⟩ hg

lemma count_close_socket_trace (o : Option ℕ) (i sk : SockId) :
    (close_socket_trace o i).count (Action.closeSock sk) =
      if sk = i ∧ o.isSome then 1 else 0 := by
  cases o <;> by_cases h : sk = i <;> simp [close_socket_trace, h]

lemma count_close_proc_trace (b w : Bool) (sk : SockId) :
    ((if b then [Action.terminateProc] ++ (if w then [Action.killProc] else [])
      else []) : List Action).count (Action.closeSock sk) = 0 := by
  cases b <;> cases w <;> simp

/-- C7.  `stop_server` on a running server nulls every socket/process
handle; invoking it again on the resulting state is a no-op (no error, empty
action trace, state unchanged); and across both invocations each socket
handle is closed at most once. -/
theorem stop_server_idempotent (w : Bool) (s : ServerState) (hs : s.is_running = true) :
    ((stop_server w s).1.is_running = false ∧
     (stop_server w s).1.client_conn = none ∧
     (stop_server w s).1.audio_client_conn = none ∧
     (stop_server w s).1.control_client_conn = none ∧
     (stop_server w s).1.server_socket = none ∧
     (stop_server w s).1.audio_socket = none ∧
     (stop_server w s).1.control_socket_listener = none ∧
     (stop_server w s).1.media_process = none) ∧
    stop_server w (stop_server w s).1 = ((stop_server w s).1, []) ∧
    (∀ sk, ((stop_server w s).2 ++ (stop_server w (stop_server w s).1).2).count
        (Action.closeSock sk) ≤ 1) := by
  have hguard : ¬ (s.is_running = false ∧ s.server_socket = none) := by
    intro hc
    rw [hs] at hc
    exact absurd hc.1 (by simp)
  have hnoop : ∀ t : ServerState, t.is_running = false → t.server_socket = none →
      stop_server w t = (t, []) := by
    intro t h1 h2
    rw [stop_server, if_pos ⟨h1, h2⟩]
  rw [stop_server, if_neg hguard, hnoop _ rfl rfl]
  refine ⟨⟨rfl, rfl, rfl, rfl, rfl, rfl, rfl, rfl⟩, rfl, ?_⟩
  intro sk
  simp only [List.append_nil, List.count_append, count_close_socket_trace,
    count_close_proc_trace]
  have hc : (([Action.setStopStream, Action.setStopHeartbeat, Action.setStopControl] :
      List Action).count (Action.closeSock sk)) = 0 := by simp
  have hs2 : (([Action.saveSettings] : List Action).count (Action.closeSock sk)) = 0 := by
    simp
  rw [hc, hs2]
  cases sk <;> simp <;> split_ifs <;> simp

/-- C7 witness: a second teardown after stopping a fully populated running
server is a no-op with an empty action trace. -/
theorem stop_server_idempotent_witness :
    stop_server false (stop_server false
        ⟨true, "Legacy (Slow)", some 1, some 2, some 3, some 4, some 5, some 6,
         some 7, some 8, true, false, false⟩).1 =
      ((stop_server false
        ⟨true, "Legacy (Slow)", some 1, some 2, some 3, some 4, some 5, some 6,
         some 7, some 8, true, false, false⟩).1, []) :=
  (stop_server_idempotent false
    ⟨true, "Legacy (Slow)", some 1, some 2, some 3, some 4, some 5, some 6,
     some 7, some 8, true, false, false⟩ rfl).2.1

/-! ## Media pipeline streaming loops (`stream_ffmpeg`, `stream_screen_x11`)

Each loop is modelled as a fold over a list of per-iteration environment
observations, threading the `_stop_heartbeat_event` flag and reporting how
the loop terminated. -/

/-- One iteration's observations in the `stream_ffmpeg` send loop. -/
structure FfmpegIter where
  running : Bool
  stopStream : Bool
  connPresent : Bool
  procExited : Bool
  chunk : List ℕ
  procExitedRecheck : Bool
  sendOk : Bool

/-- How a `stream_ffmpeg` loop run ended. -/
inductive FfmpegExit
  | stopFlag
  | connLostOrProcExit
  | procExitAfterEmptyRead
  | sendFailure
deriving DecidableEq

/-- The `stream_ffmpeg` send loop: while running and not stopped, break when
the client is gone or `poll()` reports the encoder process exited; on an
empty read, break if the process exited, otherwise sleep and continue; on a
send failure set the heartbeat stop event and break.  Returns the exit
reason (`none` if the observations ran out mid-loop) and the final
heartbeat-stop flag. -/
def stream_ffmpeg_loop : List FfmpegIter → Bool → Option FfmpegExit × Bool
  | [], hb => (none, hb)
  | o :: rest, hb =>
    if o.running && !o.stopStream then
      if !o.connPresent || o.procExited then (some FfmpegExit.connLostOrProcExit, hb)
      else if o.chunk.isEmpty then
        if o.procExitedRecheck then (some FfmpegExit.procExitAfterEmptyRead, hb)
        else stream_ffmpeg_loop rest hb
      else if o.sendOk then stream_ffmpeg_loop rest hb
      else (some FfmpegExit.sendFailure, true)
    else (some FfmpegExit.stopFlag, hb)

/-- The outcome of one legacy X11 capture/encode/send iteration. -/
inductive X11Outcome
  | frameSent
  | captureOrSockError
  | otherError

/-- One iteration's observations in the `stream_screen_x11` loop. -/
structure X11Iter where
  running : Bool
  stopStream : Bool
  outcome : X11Outcome

/-- How a `stream_screen_x11` loop run ended. -/
inductive X11Exit
  | stopFlag
  | captureOrSockError
  | otherError
deriving DecidableEq

/-- The legacy X11 loop: a `ScreenShotError` or socket error sets the
heartbeat stop event and breaks; any other exception breaks without setting
it; the loop also exits when the running/stop flags say so. -/
def stream_x11_loop : List X11Iter → Bool → Option X11Exit × Bool
  | [], hb => (none, hb)
  | o :: rest, hb =>
    if o.running && !o.stopStream then
      match o.outcome with
      | X11Outcome.frameSent => stream_x11_loop rest hb
      | X11Outcome.captureOrSockError => (some X11Exit.captureOrSockError, true)
      | X11Outcome.otherError => (some X11Exit.otherError, hb)
    else (some X11Exit.stopFlag, hb)

lemma stream_ffmpeg_loop_heartbeat (l : List FfmpegIter) (hb : Bool) :
    ((stream_ffmpeg_loop l hb).1 = some FfmpegExit.sendFailure →
      (stream_ffmpeg_loop l hb).2 = true) ∧
    ((stream_ffmpeg_loop l hb).1 = some FfmpegExit.connLostOrProcExit →
      (stream_ffmpeg_loop l hb).2 = hb) ∧
    ((stream_ffmpeg_loop l hb).1 = some FfmpegExit.procExitAfterEmptyRead →
      (stream_ffmpeg_loop l hb).2 = hb) := by
  induction l with
  | nil => simp [stream_ffmpeg_loop]
  | cons o rest ih =>
    simp only [stream_ffmpeg_loop]
    split_ifs <;> simp_all

lemma stream_x11_loop_heartbeat (l : List X11Iter) (hb : Bool) :
    ((stream_x11_loop l hb).1 = some X11Exit.captureOrSockError →
      (stream_x11_loop l hb).2 = true) := by
  induction l with
  | nil => simp [stream_x11_loop]
  | cons o rest ih =>
    simp only [stream_x11_loop]
    split_ifs
    · cases o.outcome <;> simp_all
    · simp

/-- C6 counterexample: one iteration in which the FFmpeg encoder process has
exited (`poll() is not None`) while running with a client connected: the
loop terminates, but the heartbeat stop event is left `false`, so teardown
is not triggered by the loop. -/
theorem ffmpeg_proc_exit_leaves_heartbeat_unset :
    stream_ffmpeg_loop [⟨true, false, true, true, [5], false, true⟩] false =
      (some FfmpegExit.connLostOrProcExit, false) := rfl

/-- C6 (amended).  A socket write failure ends the FFmpeg loop with the
heartbeat stop event set, and a capture/socket error ends the legacy X11
loop with it set; but an FFmpeg encoder process exit (detected at either
poll site) ends the loop with the heartbeat flag unchanged — teardown is
only triggered for the socket-failure and legacy capture-error causes. -/
theorem media_loop_failure_policy (l : List FfmpegIter) (l2 : List X11Iter)
    (hb hb2 : Bool) :
    ((stream_ffmpeg_loop l hb).1 = some FfmpegExit.sendFailure →
      (stream_ffmpeg_loop l hb).2 = true) ∧
    ((stream_ffmpeg_loop l hb).1 = some FfmpegExit.connLostOrProcExit →
      (stream_ffmpeg_loop l hb).2 = hb) ∧
    ((stream_ffmpeg_loop l hb).1 = some FfmpegExit.procExitAfterEmptyRead →
      (stream_ffmpeg_loop l hb).2 = hb) ∧
    ((stream_x11_loop l2 hb2).1 = some X11Exit.captureOrSockError →
      (stream_x11_loop l2 hb2).2 = true) :=
  ⟨(stream_ffmpeg_loop_heartbeat l hb).1, (stream_ffmpeg_loop_heartbeat l hb).2.1,
   (stream_ffmpeg_loop_heartbeat l hb).2.2, stream_x11_loop_heartbeat l2 hb2⟩

/-! ## Control channel receive loop (`_handle_control_client`)

Bytes and decoded code points are natural numbers; the newline delimiter is
code point 10.  Each `recv` chunk is decoded as UTF-8 eagerly — outside the
per-line try/except — so a chunk that fails to decode raises
`UnicodeDecodeError` out of the loop and ends the channel.  The inner
`while "\n" in buffer` loop is modelled by `extractLines`, which splits a
buffer into its complete lines and the trailing partial line. -/

/-- Strict UTF-8 decoding of one received chunk to its code points, as
`bytes.decode('utf-8')` performs it: `none` models `UnicodeDecodeError` —
an invalid leading byte, a bad continuation byte, an overlong, surrogate or
out-of-range encoding, or a multi-byte sequence truncated at the chunk
boundary. -/
def utf8_decode : List ℕ → Option (List ℕ)
  | [] => some []
  | b :: bs =>
    if b < 0x80 then (utf8_decode bs).map (fun t => b :: t)
    else if b < 0xC2 then none
    else if b < 0xE0 then
      match bs with
      | b1 :: bs2 =>
        if 0x80 ≤ b1 ∧ b1 < 0xC0 then
          (utf8_decode bs2).map (fun t => ((b - 0xC0) * 0x40 + (b1 - 0x80)) :: t)
        else none
      | [] => none
    else if b < 0xF0 then
      match bs with
      | b1 :: b2 :: bs2 =>
        if (0x80 ≤ b1 ∧ b1 < 0xC0) ∧ (0x80 ≤ b2 ∧ b2 < 0xC0) then
          if (b - 0xE0) * 0x1000 + (b1 - 0x80) * 0x40 + (b2 - 0x80) < 0x800 ∨
              (0xD800 ≤ (b - 0xE0) * 0x1000 + (b1 - 0x80) * 0x40 + (b2 - 0x80) ∧
               (b - 0xE0) * 0x1000 + (b1 - 0x80) * 0x40 + (b2 - 0x80) < 0xE000) then none
          else (utf8_decode bs2).map
            (fun t => ((b - 0xE0) * 0x1000 + (b1 - 0x80) * 0x40 + (b2 - 0x80)) :: t)
        else none
      | _ => none
    else if b < 0xF5 then
      match bs with
      | b1 :: b2 :: b3 :: bs2 =>
        if (0x80 ≤ b1 ∧ b1 < 0xC0) ∧ (0x80 ≤ b2 ∧ b2 < 0xC0) ∧
            (0x80 ≤ b3 ∧ b3 < 0xC0) then
          if (b - 0xF0) * 0x40000 + (b1 - 0x80) * 0x1000 + (b2 - 0x80) * 0x40 +
                (b3 - 0x80) < 0x10000 ∨
              0x10FFFF < (b - 0xF0) * 0x40000 + (b1 - 0x80) * 0x1000 +
                (b2 - 0x80) * 0x40 + (b3 - 0x80) then none
          else (utf8_decode bs2).map
            (fun t => ((b - 0xF0) * 0x40000 + (b1 - 0x80) * 0x1000 +
              (b2 - 0x80) * 0x40 + (b3 - 0x80)) :: t)
        else none
      | _ => none
    else none

/-- How the control receive loop ended. -/
inductive CtrlEnd
  | disconnected
  | decodeError
  | drained
deriving DecidableEq

/-- Split a buffer at newline delimiters: the complete lines, in order, and
the remaining partial line (kept in the buffer for the next `recv`). -/
def extractLines : List ℕ → List (List ℕ) × List ℕ
  | [] => ([], [])
  | b :: bs =>
    if b = 10 then ([] :: (extractLines bs).1, (extractLines bs).2)
    else
      match extractLines bs with
      | (l :: ls, r) => ((b :: l) :: ls, r)
      | ([], r) => ([], b :: r)

/-- The fate of one complete line: its event was decoded and dispatched, or
the line was logged and discarded (JSON decode error, or the event
processing raised). -/
inductive CtrlOut (E : Type)
  | processed (e : E)
  | logged (line : List ℕ)
deriving DecidableEq

/-- Handling of one complete line inside the inner loop:
`json.loads` + `process_control_event`, with both `except` arms logging and
discarding the line. -/
def handle_line {E : Type} (parse : List ℕ → Option E) (l : List ℕ) : CtrlOut E :=
  match parse l with
  | some e => CtrlOut.processed e
  | none => CtrlOut.logged l

/-- The receive loop of `_handle_control_client`:
`data = conn.recv(4096).decode('utf-8')` decodes each chunk **before** the
per-line try/except, so a chunk that fails to decode ends the loop with
`CtrlEnd.decodeError` (the exception is caught only by the handler-level
`except`, whose `finally` closes the connection); an empty read ends it
normally (`CtrlEnd.disconnected`); otherwise the decoded text is appended
to the buffer, every complete line is split off and handled, and the
partial tail is kept. -/
def control_loop {E : Type} (parse : List ℕ → Option E) :
    List (List ℕ) → List ℕ → List (CtrlOut E) × CtrlEnd
  | [], _ => ([], CtrlEnd.drained)
  | c :: cs, buf =>
    match utf8_decode c with
    | none => ([], CtrlEnd.decodeError)
    | some d =>
      if d = [] then ([], CtrlEnd.disconnected)
      else
        ((extractLines (buf ++ d)).1.map (handle_line parse) ++
            (control_loop parse cs (extractLines (buf ++ d)).2).1,
         (control_loop parse cs (extractLines (buf ++ d)).2).2)

lemma extractLines_no_newline (x : List ℕ) : 10 ∉ (extractLines x).2 := by
  induction x with
  | nil => simp [extractLines]
  | cons b bs ih =>
    simp only [extractLines]
    split_ifs with hb
    · exact ih
    · cases h : extractLines bs with
      | mk ls r =>
        rw [h] at ih
        cases ls with
        | nil =>
          simp only [List.mem_cons, not_or]
          exact ⟨fun hc => hb hc.symm, ih⟩
        | cons l ls' => exact ih

lemma extractLines_of_no_newline (x : List ℕ) (h : 10 ∉ x) : extractLines x = ([], x) := by
  induction x with
  | nil => rfl
  | cons b bs ih =>
    have hb : b ≠ 10 := fun hc => h (by simp [hc])
    have hbs : 10 ∉ bs := fun hc => h (by simp [hc])
    simp only [extractLines, if_neg hb, ih hbs]

lemma extractLines_cons_nl (bs : List ℕ) :
    extractLines (10 :: bs) = ([] :: (extractLines bs).1, (extractLines bs).2) := by
  simp [extractLines]

lemma extractLines_cons (b : ℕ) (bs : List ℕ) (hb : b ≠ 10) :
    extractLines (b :: bs) =
      (match extractLines bs with
       | (l :: ls, r) => ((b :: l) :: ls, r)
       | ([], r) => ([], b :: r)) := by
  simp [extractLines, hb]

lemma extractLines_append (x y : List ℕ) :
    extractLines (x ++ y) =
      ((extractLines x).1 ++ (extractLines ((extractLines x).2 ++ y)).1,
       (extractLines ((extractLines x).2 ++ y)).2) := by
  induction x with
  | nil => simp [extractLines]
  | cons b bs ih =>
    cases h : extractLines bs with
    | mk ls r =>
      rw [h] at ih
      simp only at ih
      by_cases hb : b = 10
      · subst hb
        rw [List.cons_append, extractLines_cons_nl, extractLines_cons_nl, h, ih]
        simp
      · rw [List.cons_append, extractLines_cons _ _ hb, extractLines_cons _ _ hb, h, ih]
        cases ls with
        | nil =>
          cases h2 : extractLines (r ++ y) with
          | mk ls2 r2 =>
            cases ls2 with
            | nil => simp [extractLines_cons _ _ hb, h2]
            | cons l2 ls2' => simp [extractLines_cons _ _ hb, h2]
        | cons l ls' => simp

lemma control_loop_eq {E : Type} (parse : List ℕ → Option E) (cs : List (List ℕ)) :
    ∀ buf : List ℕ, 10 ∉ buf →
      (∀ c ∈ cs, ∃ d, utf8_decode c = some d ∧ d ≠ []) →
      control_loop parse cs buf =
        ((extractLines (buf ++ (cs.map (fun c => (utf8_decode c).getD [])).flatten)).1.map
          (handle_line parse), CtrlEnd.drained) := by
  induction cs with
  | nil =>
    intro buf hb _
    simp [control_loop, extractLines_of_no_newline buf hb]
  | cons c cs ih =>
    intro buf hb hdec
    obtain ⟨d, hd, hdne⟩ := hdec c (by simp)
    have ihr := ih (extractLines (buf ++ d)).2 (extractLines_no_newline (buf ++ d))
      (fun c2 hc2 => hdec c2 (by simp [hc2]))
    simp only [control_loop, hd, List.map_cons, Option.getD_some, List.flatten_cons]
    rw [if_neg hdne, ihr]
    rw [← List.append_assoc, extractLines_append (buf ++ d) _]
    simp

/-- C8 (amended).  Over received chunks that each decode as UTF-8 to
nonempty text, the receiver buffers partial reads, splits the concatenated
decoded stream on the newline delimiter, and handles every complete line
independently: a line that fails JSON parsing (or whose processing raises)
is logged and discarded while every other line is still processed, and the
loop keeps receiving; but each chunk is decoded eagerly outside the
per-line handlers, so a chunk that does not decode ends the control channel
loop at once. -/
theorem control_channel_malformed_line_tolerance {E : Type}
    (parse : List ℕ → Option E) (chunks : List (List ℕ))
    (hdec : ∀ c ∈ chunks, ∃ d, utf8_decode c = some d ∧ d ≠ []) :
    control_loop parse chunks [] =
      ((extractLines ((chunks.map (fun c => (utf8_decode c).getD [])).flatten)).1.map
        (handle_line parse), CtrlEnd.drained) ∧
    (∀ l, l ∈ (extractLines ((chunks.map (fun c => (utf8_decode c).getD [])).flatten)).1 →
      parse l = none → CtrlOut.logged l ∈ (control_loop parse chunks []).1) ∧
    (∀ l e, l ∈ (extractLines ((chunks.map (fun c => (utf8_decode c).getD [])).flatten)).1 →
      parse l = some e → CtrlOut.processed e ∈ (control_loop parse chunks []).1) ∧
    (∀ c cs buf, utf8_decode c = none →
      control_loop parse (c :: cs) buf = ([], CtrlEnd.decodeError)) := by
  have hmain := control_loop_eq parse chunks [] (by simp) hdec
  rw [List.nil_append] at hmain
  refine ⟨hmain, ?_, ?_, ?_⟩
  · intro l hl hp
    rw [hmain]
    exact List.mem_map.mpr ⟨l, hl, by simp [handle_line, hp]⟩
  · intro l e hl hp
    rw [hmain]
    exact List.mem_map.mpr ⟨l, hl, by simp [handle_line, hp]⟩
  · intro c cs buf hc
    simp only [control_loop, hc]

/-- C8 counterexample: byte 255 is not valid UTF-8, so the chunk [255, 10]
raises `UnicodeDecodeError` at the eager per-chunk decode — before any line
splitting — and the loop ends at once: the following well-formed line
"1\n" is never received or processed.  A malformed line can therefore
terminate the control channel loop, refuting the claim as stated. -/
theorem control_channel_undecodable_chunk_stops_loop :
    utf8_decode [255, 10] = none ∧
    control_loop (fun l => if l = [49] then some 7 else (none : Option ℕ))
        [[255, 10], [49, 10]] [] = ([], CtrlEnd.decodeError) := by
  constructor
  · decide
  · simp only [control_loop]
    decide

/-- C8 witness: the ASCII stream "1\n2\n3" (newline = 10) arriving in two
chunks yields one parsed event for line "1" and a logged discard for the
malformed line "2", with the partial "3" left buffered and the loop still
receiving. -/
theorem control_channel_malformed_line_tolerance_witness :
    control_loop (fun l => if l = [49] then some 7 else (none : Option ℕ))
        [[49, 10, 50], [10, 51]] [] =
      ([CtrlOut.processed 7, CtrlOut.logged [50]], CtrlEnd.drained) := by
  have h := (control_channel_malformed_line_tolerance
    (fun l => if l = [49] then some 7 else (none : Option ℕ))
    [[49, 10, 50], [10, 51]]
    (by
      intro c hc
      simp only [List.mem_cons, List.not_mem_nil, or_false] at hc
      rcases hc with rfl | rfl
      · exact ⟨[49, 10, 50], by decide, by decide⟩
      · exact ⟨[10, 51], by decide, by decide⟩)).1
  rw [h]
  decide

/-! ## Settings persistence (`_load_settings`) -/

/-- The persisted configuration store (`server.ini`): each key either
absent or holding a stored value.  `configparser` performs no range
checking. -/
structure SettingsStore where
  jpeg_quality : Option ℤ
  screen_capture_rate : Option ℤ
  is_muted : Option Bool
  encoder_mode : Option String
  ffmpeg_encoder : Option String

/-- The settings fields the server holds after `_load_settings` (and reads
from the media pipeline). -/
structure StreamSettings where
  jpeg_quality : ℤ
  screen_capture_rate : ℤ
  is_muted : Bool
  encoder_mode : String
  ffmpeg_encoder : String
deriving DecidableEq

/-- `_load_settings`: each key is read with its fallback (75, 30, False,
"Legacy (Slow)", "libx264"); a stored value is taken as-is, unclamped. -/
def load_settings (st : SettingsStore) : StreamSettings :=
  ⟨st.jpeg_quality.getD 75, st.screen_capture_rate.getD 30, st.is_muted.getD false,
   st.encoder_mode.getD "Legacy (Slow)", st.ffmpeg_encoder.getD "libx264"⟩

/-- C9 counterexample: a persisted store with `jpeg_quality = 5` and
`screen_capture_rate = 0` loads exactly those values, outside [10,100] and
[1,60], and they are what the pipeline then reads. -/
theorem load_settings_out_of_range :
    (load_settings ⟨some 5, some 0, none, none, none⟩).jpeg_quality = 5 ∧
    ¬(10 ≤ (load_settings ⟨some 5, some 0, none, none, none⟩).jpeg_quality ∧
      (load_settings ⟨some 5, some 0, none, none, none⟩).jpeg_quality ≤ 100) ∧
    (load_settings ⟨some 5, some 0, none, none, none⟩).screen_capture_rate = 0 ∧
    ¬(1 ≤ (load_settings ⟨some 5, some 0, none, none, none⟩).screen_capture_rate ∧
      (load_settings ⟨some 5, some 0, none, none, none⟩).screen_capture_rate ≤ 60) := by
  refine ⟨rfl, ?_, rfl, ?_⟩ <;> decide

/-- C9 (amended).  `_load_settings` clamps nothing: absent keys fall back to
the in-range defaults 75 and 30, a stored value is loaded as-is, and the
[10,100] / [1,60] range invariant at the pipeline's reads holds exactly
when the persisted values themselves are in range. -/
theorem stream_config_range (st : SettingsStore) :
    (st.jpeg_quality = none → (load_settings st).jpeg_quality = 75 ∧
      10 ≤ (load_settings st).jpeg_quality ∧ (load_settings st).jpeg_quality ≤ 100) ∧
    (st.screen_capture_rate = none → (load_settings st).screen_capture_rate = 30 ∧
      1 ≤ (load_settings st).screen_capture_rate ∧
      (load_settings st).screen_capture_rate ≤ 60) ∧
    (∀ q, st.jpeg_quality = some q → (load_settings st).jpeg_quality = q) ∧
    (∀ r, st.screen_capture_rate = some r → (load_settings st).screen_capture_rate = r) ∧
    ((∀ q, st.jpeg_quality = some q → 10 ≤ q ∧ q ≤ 100) →
      10 ≤ (load_settings st).jpeg_quality ∧ (load_settings st).jpeg_quality ≤ 100) ∧
    ((∀ r, st.screen_capture_rate = some r → 1 ≤ r ∧ r ≤ 60) →
      1 ≤ (load_settings st).screen_capture_rate ∧
      (load_settings st).screen_capture_rate ≤ 60) := by
  refine ⟨?_, ?_, ?_, ?_, ?_, ?_⟩
  · intro h
    simp [load_settings, h]
  · intro h
    simp [load_settings, h]
  · intro q h
    simp [load_settings, h]
  · intro r h
    simp [load_settings, h]
  · intro h
    cases hq : st.jpeg_quality with
    | none => simp [load_settings, hq]
    | some q =>
      have := h q hq
      simpa [load_settings, hq] using this
  · intro h
    cases hr : st.screen_capture_rate with
    | none => simp [load_settings, hr]
    | some r =>
      have := h r hr
      simpa [load_settings, hr] using this

end PyViewer
